import Mathlib

/-!
Verification development for the clearsight source-prediction repository.

The repository has three Python source files:
* test_comprehensive_attribution.py - behavioural validation suite for the
  attribution modulation engine (the engine itself is served over HTTP and is
  not part of the excerpt; claims about it are settled against a model built
  from spec.md).
* fetch_cpcb_live.py - live RSS/XML ingestion: parse_rss_feed,
  normalize_station_name, find_matching_station, update_station_csv.
* backfill_wind.py - meteorology backfill job: get_station_timestamps,
  fetch_station_wind, main, and the combine/deduplicate step.

Pure functions are transcribed directly; Python floats are modelled as ℚ,
datetimes as ℤ instants, and library calls (difflib.SequenceMatcher.ratio,
datetime.strptime, float) as explicit function parameters.
-/

namespace ClearSight

/-! ## Python string primitives

Structural-recursion models of the Python `str` methods used by
fetch_cpcb_live.py, over the character lists that back Lean strings.
`str.replace` replaces non-overlapping occurrences left to right;
`str.strip()` removes leading/trailing whitespace; `str.lower()` lowercases
(ASCII is all that appears in station names).
-/

def replaceGo (pat rep : List Char) : Nat → List Char → List Char
  | _ + 1, [] => []
  | k + 1, _ :: cs => replaceGo pat rep k cs
  | 0, [] => []
  | 0, c :: cs =>
    if pat ≠ [] ∧ (c :: cs).take pat.length = pat then
      rep ++ replaceGo pat rep (pat.length - 1) cs
    else c :: replaceGo pat rep 0 cs

def pyReplace (s pat rep : String) : String :=
  if pat.data = [] then s else ⟨replaceGo pat.data rep.data 0 s.data⟩

def isPySpace (c : Char) : Bool :=
  c = ' ' ∨ c = '\t' ∨ c = '\n' ∨ c = '\r' ∨ c = '\x0b' ∨ c = '\x0c'

def pyStrip (s : String) : String :=
  ⟨((s.data.dropWhile isPySpace).reverse.dropWhile isPySpace).reverse⟩

def pyLower (s : String) : String := ⟨s.data.map Char.toLower⟩

/-! ## fetch_cpcb_live.py: station-name normalization and fuzzy matching -/

def suffixesToDrop : List String :=
  [" - dpcc", " - cpcb", " - imd", " - uppcb", " - hspcb", " - rspcb", " - iitm"]

/-- Transcription of normalize_station_name (fetch_cpcb_live.py lines 104-111):
lowercase, strip, drop agency suffixes, drop commas, collapse one layer of
double spaces, strip again. -/
def normalize_station_name (name : String) : String :=
  let n1 := pyStrip (pyLower name)
  let n2 := suffixesToDrop.foldl (fun s suf => pyReplace s suf "") n1
  let n3 := pyReplace (pyReplace n2 "," "") "  " " "
  pyStrip n3

/-- A row of the stations_metadata.csv table, as consumed by
find_matching_station (only station_name is inspected; filename is what
update_station_csv later uses). -/
structure StationMeta where
  station_name : String
  filename : String
deriving DecidableEq

/-- Loop of find_matching_station (fetch_cpcb_live.py lines 121-133): walk the
metadata rows in order carrying the best fuzzy match so far; return
immediately on an exact normalized-name match; otherwise remember a row when
its similarity score beats both the best score so far and the 0.6 threshold. -/
def findMatchingAux (ratio : String → String → ℚ) (rssNorm : String) :
    List StationMeta → Option StationMeta → ℚ → Option StationMeta
  | [], best, _ => best
  | row :: rest, best, bestScore =>
    if rssNorm = normalize_station_name row.station_name then some row
    else
      if bestScore < ratio rssNorm (normalize_station_name row.station_name) ∧
          3 / 5 < ratio rssNorm (normalize_station_name row.station_name) then
        findMatchingAux ratio rssNorm rest (some row)
          (ratio rssNorm (normalize_station_name row.station_name))
      else findMatchingAux ratio rssNorm rest best bestScore

/-- Transcription of find_matching_station (fetch_cpcb_live.py lines 114-134).
The similarity function difflib.SequenceMatcher(None, a, b).ratio() is passed
in as the parameter ratio; best_match starts as None and best_score as 0. -/
def find_matching_station (ratio : String → String → ℚ) (rssName : String)
    (ourStations : List StationMeta) : Option StationMeta :=
  findMatchingAux ratio (normalize_station_name rssName) ourStations none 0

/-! ## test_comprehensive_attribution.py: validation logic of run_test -/

/-- One entry of the response's contributions mapping, restricted to the two
fields the validation logic reads (run_test lines 383-385 and 395-396). -/
structure SourceResult where
  percentage : ℚ
  level : String
deriving DecidableEq

/-- contributions.get(s, {}).get('percentage', 0). -/
def getPct (c : List (String × SourceResult)) (s : String) : ℚ :=
  match List.lookup s c with
  | some d => d.percentage
  | none => 0

/-- contributions.get(s, {}).get('level', ''). -/
def getLevel (c : List (String × SourceResult)) (s : String) : String :=
  match List.lookup s c with
  | some d => d.level
  | none => ""

/-- The expected-high check of run_test (lines 382-391):
`if level in ['High', 'Medium'] or pct >= 15`. -/
def elevatedCheck (c : List (String × SourceResult)) (s : String) : Bool :=
  decide (getLevel c s = "High" ∨ getLevel c s = "Medium") || decide (15 ≤ getPct c s)

/-- The expected-low check of run_test (lines 394-402): `if pct <= 12`. -/
def lowCheck (c : List (String × SourceResult)) (s : String) : Bool :=
  decide (getPct c s ≤ 12)

/-- The validation section of run_test (lines 377-404): passed starts True and
is cleared whenever an expected-high source fails the elevated check or an
expected-low source fails the low check. -/
def runTestValidation (c : List (String × SourceResult))
    (expectedHigh expectedLow : List String) : Bool :=
  expectedHigh.all (fun s => elevatedCheck c s) && expectedLow.all (fun s => lowCheck c s)

/-! ## fetch_cpcb_live.py: parse_rss_feed

The XML document is modelled as a tree of elements with attributes, mirroring
what xml.etree.ElementTree exposes.  The two library calls inside the loop -
datetime.strptime(lastupdate, "%d-%m-%Y %H:%M:%S") and float(value) - are
passed in as parameters parseTs / parseFloat that return none exactly when the
Python call raises ValueError (the code catches those ValueErrors).
-/

inductive Xml where
  | elem (tag : String) (attrs : List (String × String)) (children : List Xml)

def Xml.tag : Xml → String
  | .elem t _ _ => t

def Xml.attrs : Xml → List (String × String)
  | .elem _ a _ => a

def Xml.children : Xml → List Xml
  | .elem _ _ c => c

/-- Element.get(key): attribute lookup, None when absent. -/
def attrGet (e : Xml) (k : String) : Option String :=
  List.lookup k e.attrs

mutual
/-- root.iter(tag): all elements of the subtree with the given tag, in
document (pre-)order, the root included. -/
def iterTag (t : String) : Xml → List Xml
  | .elem tag attrs children =>
    (if tag = t then [Xml.elem tag attrs children] else []) ++ iterTagList t children
def iterTagList (t : String) : List Xml → List Xml
  | [] => []
  | c :: cs => iterTag t c ++ iterTagList t cs
end

/-- A value stored in the stations_data[...]["pollutants"] dict: pollutant
sub-indices are floats, while the "AQI" entry stores the raw attribute (an
optional string, None when the Value attribute is missing). -/
inductive PVal where
  | num (q : ℚ)
  | rawStr (s : Option String)
deriving DecidableEq

/-- Python dict assignment d[k] = v: replace in place when the key exists,
append otherwise. -/
def dictUpsert {α : Type} (k : String) (v : α) :
    List (String × α) → List (String × α)
  | [] => [(k, v)]
  | (k2, v2) :: rest =>
    if k2 = k then (k, v) :: rest else (k2, v2) :: dictUpsert k v rest

/-- The pollutant-extraction loop of parse_rss_feed (lines 72-84): for each
Pollutant_Index child keep Hourly_sub_index when the id and the value are
truthy, the value is not "NA", and float() succeeds. -/
def pollutantBase (parseFloat : String → Option ℚ) (station : Xml) :
    List (String × PVal) :=
  (station.children.filter (fun c => c.tag = "Pollutant_Index")).foldl
    (fun acc p =>
      match attrGet p "id", attrGet p "Hourly_sub_index" with
      | some pid, some hv =>
        if pid ≠ "" ∧ hv ≠ "" ∧ hv ≠ "NA" then
          match parseFloat hv with
          | some q => dictUpsert pid (PVal.num q) acc
          | none => acc
        else acc
      | _, _ => acc) []

/-- The pollutants dict of a station (lines 72-88): the extracted sub-indices,
then the Air_Quality_Index Value attribute (if that element exists) stored
under "AQI". -/
def pollutantsOf (parseFloat : String → Option ℚ) (station : Xml) :
    List (String × PVal) :=
  match station.children.find? (fun c => c.tag = "Air_Quality_Index") with
  | some aqi =>
    dictUpsert "AQI" (PVal.rawStr (attrGet aqi "Value"))
      (pollutantBase parseFloat station)
  | none => pollutantBase parseFloat station

/-- The per-station record assembled by parse_rss_feed (lines 90-95). -/
structure StationData where
  timestamp : ℤ
  lat : Option String
  lon : Option String
  pollutants : List (String × PVal)
deriving DecidableEq

/-- The body of the Station loop (lines 57-95): skip the station when the id
or lastupdate attribute is missing or falsy (empty), or when strptime fails;
otherwise build its record. -/
def stationEntry (parseTs : String → Option ℤ) (parseFloat : String → Option ℚ)
    (st : Xml) : Option (String × StationData) :=
  match attrGet st "id", attrGet st "lastupdate" with
  | some sid, some lu =>
    if sid = "" ∨ lu = "" then none
    else
      match parseTs lu with
      | none => none
      | some ts =>
        some (sid, ⟨ts, attrGet st "latitude", attrGet st "longitude",
          pollutantsOf parseFloat st⟩)
  | _, _ => none

/-- The stations_data dict built by the Station loop. -/
def buildStations (parseTs : String → Option ℤ) (parseFloat : String → Option ℚ)
    (root : Xml) : List (String × StationData) :=
  (iterTag "Station" root).foldl
    (fun acc st =>
      match stationEntry parseTs parseFloat st with
      | some e => dictUpsert e.1 e.2 acc
      | none => acc) []

/-- What ET.fromstring does with the input string xml_content:
* parsed = none models a string that is not well-formed XML: fromstring
  raises xml.etree.ElementTree.ParseError;
* hasEncodingDecl = true models a well-formed string that begins with an XML
  declaration carrying an encoding pseudo-attribute: fromstring on a str (as
  opposed to bytes) then raises ValueError ("Unicode strings with encoding
  declaration are not supported") instead of returning a tree. -/
structure XmlInput where
  hasEncodingDecl : Bool
  parsed : Option Xml

inductive ParseOutcome where
  | ok (m : List (String × StationData))
  | raised (exc : String)

/-- Transcription of parse_rss_feed (fetch_cpcb_live.py lines 49-101).  The
except clause catches only ET.ParseError (returning the empty dict); the
ValueError raised by fromstring on a str with an encoding declaration
propagates to the caller. -/
def parse_rss_feed (parseTs : String → Option ℤ) (parseFloat : String → Option ℚ)
    (x : XmlInput) : ParseOutcome :=
  if x.hasEncodingDecl then .raised "ValueError"
  else
    match x.parsed with
    | none => .ok []
    | some root => .ok (buildStations parseTs parseFloat root)

/-! ## fetch_cpcb_live.py: update_station_csv

Rows of a station CSV are a Local Time instant (timezone-aware timestamps are
modelled as ℤ; appending the constant "+05:30" offset is an injective map so
timestamp equality is preserved) plus the pollutant columns.  The rss_data
argument carries the parsed timestamp and the numeric pollutant values (the
"AQI" dict entry is never consulted: the keys iterated over are exactly those
of POLLUTANT_MAP, and "AQI" is not among them).
-/

structure CsvRow where
  localTime : ℤ
  cols : List (String × ℚ)
deriving DecidableEq

structure CpcbRecord where
  timestamp : ℤ
  pollutants : List (String × ℚ)
deriving DecidableEq

/-- POLLUTANT_MAP of fetch_cpcb_live.py lines 27-35 (RSS id -> CSV column). -/
def POLLUTANT_MAP : List (String × String) :=
  [("PM2.5", "PM25"), ("PM10", "PM10"), ("NO2", "NO2"), ("SO2", "SO2"),
   ("CO", "CO"), ("OZONE", "O3"), ("NH3", "NH3")]

/-- The new-row construction of update_station_csv (lines 163-168): one column
per POLLUTANT_MAP entry whose RSS key is present in the pollutants dict. -/
def newRowCols (pollutants : List (String × ℚ)) : List (String × ℚ) :=
  POLLUTANT_MAP.filterMap fun kc =>
    match List.lookup kc.1 pollutants with
    | some v => some (kc.2, v)
    | none => none

instance : DecidableRel (fun a b : CsvRow => a.localTime ≤ b.localTime) :=
  fun a b => inferInstanceAs (Decidable (a.localTime ≤ b.localTime))

/-- Transcription of update_station_csv (fetch_cpcb_live.py lines 137-184),
given the parsed content df of an existing station CSV: return False and
leave the file unchanged when the timestamp already occurs, or when the new
row would carry neither a PM25 nor a PM10 column; otherwise append the row,
re-sort by Local Time, save, and return True. -/
def update_station_csv (df : List CsvRow) (rss : CpcbRecord) :
    Bool × List CsvRow :=
  if df.any (fun r => r.localTime == rss.timestamp) then (false, df)
  else
    if "PM25" ∈ (newRowCols rss.pollutants).map Prod.fst ∨
        "PM10" ∈ (newRowCols rss.pollutants).map Prod.fst then
      (true, (df ++ [CsvRow.mk rss.timestamp (newRowCols rss.pollutants)]).insertionSort
        (fun a b => a.localTime ≤ b.localTime))
    else (false, df)

/-! ## backfill_wind.py -/

/-- A row of wind_stations.csv as assembled by fetch_station_wind (lines
89-101). -/
structure WindRow where
  timestamp : ℤ
  station_id : ℕ
  station_name : String
  lat : ℚ
  lon : ℚ
  wind_temp : Option ℚ
  wind_speed_10m : Option ℚ
  wind_dir_10m : Option ℚ
  wind_speed_80m : Option ℚ
  wind_dir_80m : Option ℚ
  blh : Option ℚ
deriving DecidableEq

/-- The deduplication key used at line 197: subset=['timestamp','station_id']. -/
def windKey (r : WindRow) : ℤ × ℕ := (r.timestamp, r.station_id)

/-- pandas drop_duplicates(subset=['timestamp','station_id'], keep='last'):
a row survives exactly when no later row carries the same key. -/
def dropDupKeepLast : List WindRow → List WindRow
  | [] => []
  | r :: rest =>
    if rest.any (fun x => windKey x == windKey r) then dropDupKeepLast rest
    else r :: dropDupKeepLast rest

/-- sort_values(['station_id','timestamp']) as a lexicographic order. -/
def windLe (a b : WindRow) : Prop :=
  a.station_id < b.station_id ∨ (a.station_id = b.station_id ∧ a.timestamp ≤ b.timestamp)

instance : DecidableRel windLe :=
  fun x y => inferInstanceAs (Decidable (x.station_id < y.station_id ∨
    (x.station_id = y.station_id ∧ x.timestamp ≤ y.timestamp)))

/-- The combine-and-save step of backfill_wind.py main (lines 195-201):
concatenate the existing table with the newly fetched rows (in that order),
drop duplicate (timestamp, station_id) keys keeping the last occurrence, and
sort by station then time. -/
def combineAndDedup (existing newRows : List WindRow) : List WindRow :=
  (dropDupKeepLast (existing ++ newRows)).insertionSort windLe

/-- Per-station maxima of get_station_timestamps (line 50): groupby
station_id, max of timestamp, as an assoc list in first-seen order. -/
def perStationMax (rows : List WindRow) : List (ℕ × ℤ) :=
  rows.foldl
    (fun acc r =>
      match List.lookup r.station_id acc with
      | some t => if t < r.timestamp then
          acc.map (fun e => if e.1 = r.station_id then (e.1, r.timestamp) else e)
        else acc
      | none => acc ++ [(r.station_id, r.timestamp)]) []

/-- Transcription of get_station_timestamps (backfill_wind.py lines 37-58):
(None, None) when the file is missing or empty, otherwise the per-station and
global maxima of the timestamp column. -/
def get_station_timestamps (fileExists : Bool) (rows : List WindRow) :
    Option (List (ℕ × ℤ) × ℤ) :=
  if fileExists = false then none
  else
    match (rows.map WindRow.timestamp).max? with
    | none => none
    | some g => some (perStationMax rows, g)

/-- Python exceptions relevant to backfill_wind.main. -/
inductive PyExc where
  | nameError (missing : String)
deriving DecidableEq

inductive BackfillOutcome where
  | abortedNoStationsFile
  | reachedFetchPhase
deriving DecidableEq

/-- The module-level names bound in backfill_wind.py: the imports (lines
10-14) and the assignments and function definitions at top level (lines
17-216).  Python resolves the callee of a call through these module globals
at call time. -/
def backfillModuleNames : List String :=
  ["pd", "requests", "time", "datetime", "timedelta", "os",
   "ARCHIVE_API", "FORECAST_API", "HOURLY_VARS", "SCRIPT_DIR",
   "STATIONS_PATH", "WIND_STATIONS_PATH",
   "get_station_timestamps", "fetch_station_wind", "main"]

/-- Transcription of main (backfill_wind.py lines 110-141) up to the point
where control flow is decided: after loading the stations file, line 124
evaluates the name get_last_timestamp; when that name is not bound in the
module globals, Python raises NameError (uncaught in this script).  The
windRows argument is the content of wind_stations.csv; main never reaches
the code that would read it. -/
def backfill_main (stationsFileExists : Bool) (_windRows : List WindRow) :
    Except PyExc BackfillOutcome :=
  if stationsFileExists = false then .ok .abortedNoStationsFile
  else if "get_last_timestamp" ∈ backfillModuleNames then .ok .reachedFetchPhase
  else .error (.nameError "get_last_timestamp")

/-! ## Sample data used by concrete witnesses -/

def sampleCsv : List CsvRow := [CsvRow.mk 10 [("PM25", 240), ("NO2", 78)]]

def sampleRecord : CpcbRecord := CpcbRecord.mk 11 [("PM2.5", 300), ("NO2", 80)]

def sampleGasRecord : CpcbRecord := CpcbRecord.mk 12 [("NO2", 55), ("CO", 1)]

def sampleWindRow : WindRow :=
  WindRow.mk 0 1 "Delhi" 0 0 none none none none none none

def windRowOld : WindRow :=
  WindRow.mk 100 1 "Delhi" 0 0 (some 20) none none none none (some 150)

def windRowNew : WindRow :=
  WindRow.mk 100 1 "Delhi" 0 0 (some 21) none none none none (some 200)

/-! ## The attribution modulation engine

Modelled from the spec: the engine behind POST /attribution/modulated is not
part of the excerpt (test_comprehensive_attribution.py calls it over HTTP),
so the Source Catalog, Context Normalizer, Modulation Rule Set and Aggregator
below are built from spec.md sections 2-4, with concrete calibration
constants chosen, as section 9 instructs, to be consistent with the section 8
validation scenarios.  All arithmetic is exact (ℚ).
-/

/-- Modelled from the spec: the optional non-negative pollutant readings of a
request (section 3, Reading). -/
structure Reading where
  pm25 : Option ℚ
  pm10 : Option ℚ
  no2 : Option ℚ
  so2 : Option ℚ
  co : Option ℚ

/-- Modelled from the spec: a scoring request (section 6).  The timestamp is
represented by the fields the rules consume: calendar month and day (season
and festival windows) and hour of day (rush-hour windows). -/
structure Request where
  month : ℕ
  day : ℕ
  hour : ℕ
  readings : Reading
  wind_dir : ℚ
  wind_speed : ℚ
  blh : ℚ
  fire_count : ℕ

/-- Modelled from the spec: the attribution sources of section 1. -/
inductive SourceId where
  | stubble_burning
  | traffic
  | secondary_aerosols
  | dust
  | local_combustion
deriving DecidableEq

/-- Modelled from the spec: wind direction is wrapped into [0, 360) rather
than rejected (section 4.2); values already in range are untouched. -/
def wrapDeg (d : ℚ) : ℚ :=
  if 0 ≤ d ∧ d < 360 then d else d - 360 * (⌊d / 360⌋ : ℤ)

/-- Modelled from the spec: circular angular distance (section 3: 359 and 1
are 2 apart). -/
def circDist (a b : ℚ) : ℚ :=
  min |wrapDeg a - wrapDeg b| (360 - |wrapDeg a - wrapDeg b|)

/-- Modelled from the spec: sector membership, 1 inside the half-width, then
decaying linearly to 0 over a 20-degree falloff band (section 4.2). -/
def sectorMembership (d center halfWidth : ℚ) : ℚ :=
  if circDist d center ≤ halfWidth then 1
  else if circDist d center ≤ halfWidth + 20 then
    (halfWidth + 20 - circDist d center) / 20
  else 0

inductive TrapTier where
  | extreme
  | high
  | moderate
  | low
deriving DecidableEq

/-- Modelled from the spec: boundary-layer trapping tiers at 150/500/1500 m
(section 4.2). -/
def trappingTier (blh : ℚ) : TrapTier :=
  if blh ≤ 150 then .extreme
  else if blh ≤ 500 then .high
  else if blh ≤ 1500 then .moderate
  else .low

inductive SeasonTier where
  | active
  | shoulder
  | inactive
deriving DecidableEq

def nextMonth (m : ℕ) : ℕ := if m = 12 then 1 else m + 1

def prevMonth (m : ℕ) : ℕ := if m = 1 then 12 else m - 1

/-- Modelled from the spec: season tier from the timestamp month, with a
shoulder (partial) tier for months adjacent to the active window
(section 4.2). -/
def seasonTierFor (active : List ℕ) (m : ℕ) : SeasonTier :=
  if m ∈ active then .active
  else if nextMonth m ∈ active ∨ prevMonth m ∈ active then .shoulder
  else .inactive

def stubbleActiveMonths : List ℕ := [10, 11]

def dustActiveMonths : List ℕ := [3, 4, 5, 6]

/-- Modelled from the spec: modulation factors are clamped to [0.1, 3.0]
(section 4.3). -/
def clampFactor (x : ℚ) : ℚ := max (1 / 10) (min 3 x)

def seasonWeight : SeasonTier → ℚ
  | .active => 1
  | .shoulder => 3 / 5
  | .inactive => 0

/-- The stubble sector: emissions arrive from the northwest (Punjab), centre
300 degrees, half-width 45 degrees. -/
def stubbleMembership (req : Request) : ℚ := sectorMembership req.wind_dir 300 45

def stubbleSeason (req : Request) : SeasonTier :=
  seasonTierFor stubbleActiveMonths req.month

/-- Modelled from the spec: the geographically-sourced combustion rule
(section 4.3): the factor scales up with fire_count only when sector
membership is non-trivial and the season tier is active or partial; with
wrong-direction wind or out-of-season timestamps it is pinned at the 0.1
floor regardless of fire count. -/
def stubbleFactor (req : Request) : ℚ :=
  if 0 < stubbleMembership req ∧
      (stubbleSeason req = .active ∨ stubbleSeason req = .shoulder) then
    clampFactor (stubbleMembership req * seasonWeight (stubbleSeason req) *
      (1 + ((min req.fire_count 400 : ℕ) : ℚ) / 200))
  else 1 / 10

/-- Modelled from the spec: trapping-driven secondary formation (section
4.3): factor scales inversely with the trapping tier, at least 1.5 under
extreme trapping and at most 0.5 under low trapping, independent of wind. -/
def secondaryFactor (req : Request) : ℚ :=
  match trappingTier req.blh with
  | .extreme => 3
  | .high => 11 / 5
  | .moderate => 6 / 5
  | .low => 2 / 5

/-- Modelled from the spec: the traffic rule (section 4.3): scales with the
NO2 level and the CO-to-NO2 ratio diagnostic when present (absent readings
are neutral), with a mild rush-hour boost; unaffected by wind sector. -/
def trafficFactor (req : Request) : ℚ :=
  clampFactor
    ((match req.readings.no2 with
      | none => 1
      | some v => if 120 ≤ v then 8 / 5 else if 60 ≤ v then 6 / 5 else 1) *
     (match req.readings.co, req.readings.no2 with
      | some c, some v => if v ≠ 0 ∧ 1 / 40 ≤ c / v then 23 / 20 else 1
      | _, _ => 1) *
     (if (8 ≤ req.hour ∧ req.hour ≤ 11) ∨ (17 ≤ req.hour ∧ req.hour ≤ 21)
      then 6 / 5 else 1))

/-- Modelled from the spec: the dust rule (section 4.3): scales with the dry
season and with the PM10-to-PM2.5 ratio diagnostic when present. -/
def dustFactor (req : Request) : ℚ :=
  clampFactor
    ((match seasonTierFor dustActiveMonths req.month with
      | .active => 7 / 5
      | .shoulder => 1
      | .inactive => 3 / 5) *
     (match req.readings.pm10, req.readings.pm25 with
      | some p10, some p25 => if p25 ≠ 0 ∧ 2 ≤ p10 / p25 then 13 / 10 else 1
      | _, _ => 1))

/-- Modelled from the spec: local combustion events (section 4.3): the factor
spikes during the festival window (Diwali, around Oct 18-23 in the test data)
and decays outside it; the 4-percent prior bounds its final share. -/
def localFactor (req : Request) : ℚ :=
  if req.month = 10 ∧ 18 ≤ req.day ∧ req.day ≤ 23 then 3 else 3 / 10

/-- Modelled from the spec: the Source Catalog priors (section 3: 0-100,
summing to exactly 100; local combustion has the low 4-percent prior noted in
test 7 of the validation suite). -/
def prior : SourceId → ℚ
  | .stubble_burning => 20
  | .traffic => 32
  | .secondary_aerosols => 26
  | .dust => 18
  | .local_combustion => 4

def modulationFactor (req : Request) : SourceId → ℚ
  | .stubble_burning => stubbleFactor req
  | .traffic => trafficFactor req
  | .secondary_aerosols => secondaryFactor req
  | .dust => dustFactor req
  | .local_combustion => localFactor req

def sourceList : List SourceId :=
  [.stubble_burning, .traffic, .secondary_aerosols, .dust, .local_combustion]

/-- Modelled from the spec: Aggregator step 1 (section 4.4):
weighted = prior × modulation_factor. -/
def weighted (req : Request) (s : SourceId) : ℚ := prior s * modulationFactor req s

def totalWeight (req : Request) : ℚ := (sourceList.map (weighted req)).sum

/-- Modelled from the spec: Aggregator step 2 (section 4.4):
percentage = 100 × weighted / sum(all weighted). -/
def percentage (req : Request) (s : SourceId) : ℚ :=
  100 * weighted req s / totalWeight req

/-- Modelled from the spec: Aggregator step 3 (section 4.4): High at 30,
Medium at 15, Low below. -/
def levelOf (p : ℚ) : String :=
  if 30 ≤ p then "High" else if 15 ≤ p then "Medium" else "Low"

def percentageSum (req : Request) : ℚ := (sourceList.map (percentage req)).sum

/-- The combined weight of every source other than the geographically-sourced
combustion source; none of these depend on fire_count. -/
def otherWeight (req : Request) : ℚ :=
  weighted req .traffic + weighted req .secondary_aerosols +
    weighted req .dust + weighted req .local_combustion

/-- fire_count replacement holding every other request field fixed. -/
def reqWithFires (req : Request) (n : ℕ) : Request := { req with fire_count := n }

/-- Modelled from the spec: both gates of the geographically-sourced
combustion rule open - non-trivial sector membership and an active or partial
season tier. -/
def stubbleFavored (req : Request) : Prop :=
  0 < stubbleMembership req ∧
    (stubbleSeason req = .active ∨ stubbleSeason req = .shoulder)

/-- The section 8 regression scenario of Nov 5 2025 01:00: 316 fires but an
east wind (114 degrees). -/
def nov5Request : Request :=
  { month := 11, day := 5, hour := 1,
    readings := { pm25 := some 138, pm10 := some 200, no2 := some 77,
                  so2 := some 15, co := some (361 / 100) },
    wind_dir := 114, wind_speed := 7 / 2, blh := 270, fire_count := 316 }

/-- The section 8 scenario of Nov 8 2025 10:00: peak stubble burning with a
northwest wind (283 degrees). -/
def nov8Request : Request :=
  { month := 11, day := 8, hour := 10,
    readings := { pm25 := some 546, pm10 := some 680, no2 := some 127,
                  so2 := some 18, co := some (109 / 25) },
    wind_dir := 283, wind_speed := 63 / 10, blh := 595, fire_count := 356 }

/-! ## Engine lemmas -/

theorem clampFactor_ge (x : ℚ) : 1 / 10 ≤ clampFactor x := le_max_left _ _

theorem clampFactor_mono {x y : ℚ} (h : x ≤ y) : clampFactor x ≤ clampFactor y :=
  max_le_max le_rfl (min_le_min le_rfl h)

theorem secondaryFactor_ge (req : Request) : 1 / 10 ≤ secondaryFactor req := by
  unfold secondaryFactor
  cases trappingTier req.blh <;> norm_num

theorem localFactor_ge (req : Request) : 1 / 10 ≤ localFactor req := by
  unfold localFactor
  split <;> norm_num

theorem stubbleFactor_ge (req : Request) : 1 / 10 ≤ stubbleFactor req := by
  unfold stubbleFactor
  split
  · exact clampFactor_ge _
  · exact le_rfl

theorem modulationFactor_ge (req : Request) (s : SourceId) :
    1 / 10 ≤ modulationFactor req s := by
  cases s
  · exact stubbleFactor_ge req
  · exact clampFactor_ge _
  · exact secondaryFactor_ge req
  · exact clampFactor_ge _
  · exact localFactor_ge req

theorem prior_pos (s : SourceId) : 0 < prior s := by
  cases s <;> norm_num [prior]

theorem weighted_pos (req : Request) (s : SourceId) : 0 < weighted req s :=
  mul_pos (prior_pos s) (lt_of_lt_of_le (by norm_num) (modulationFactor_ge req s))

theorem totalWeight_eq (req : Request) :
    totalWeight req =
      weighted req .stubble_burning + weighted req .traffic +
        weighted req .secondary_aerosols + weighted req .dust +
        weighted req .local_combustion := by
  simp only [totalWeight, sourceList, List.map_cons, List.map_nil, List.sum_cons,
    List.sum_nil, add_zero]
  ring

theorem totalWeight_pos (req : Request) : 0 < totalWeight req := by
  rw [totalWeight_eq]
  have h1 := weighted_pos req .stubble_burning
  have h2 := weighted_pos req .traffic
  have h3 := weighted_pos req .secondary_aerosols
  have h4 := weighted_pos req .dust
  have h5 := weighted_pos req .local_combustion
  linarith

/-- Claim C1: for every scoring request, the percentages in the engine's
response summed over all sources equal 100 within a tolerance of 0.01 (in
fact exactly, since the Aggregator renormalizes by the total modulated
weight, which is always positive because factors are clamped at 0.1 and
priors are positive). -/
theorem percentage_sum_within_tolerance (req : Request) :
    |percentageSum req - 100| ≤ 1 / 100 := by
  have hT : totalWeight req ≠ 0 := ne_of_gt (totalWeight_pos req)
  have e1 : percentageSum req =
      (100 * weighted req .stubble_burning + 100 * weighted req .traffic +
        100 * weighted req .secondary_aerosols + 100 * weighted req .dust +
        100 * weighted req .local_combustion) / totalWeight req := by
    simp only [percentageSum, sourceList, List.map_cons, List.map_nil,
      List.sum_cons, List.sum_nil, percentage, add_zero]
    ring
  have e2 : 100 * weighted req .stubble_burning + 100 * weighted req .traffic +
      100 * weighted req .secondary_aerosols + 100 * weighted req .dust +
      100 * weighted req .local_combustion = 100 * totalWeight req := by
    rw [totalWeight_eq]
    ring
  rw [e1, e2, mul_div_assoc, div_self hT, mul_one]
  norm_num

theorem percentage_sum_within_tolerance_witness :
    |percentageSum nov5Request - 100| ≤ 1 / 100 :=
  percentage_sum_within_tolerance nov5Request

/-! ## Fire-count monotonicity lemmas -/

theorem reqWithFires_fire_count (req : Request) (n : ℕ) :
    (reqWithFires req n).fire_count = n := rfl

theorem stubbleMembership_fires (req : Request) (n : ℕ) :
    stubbleMembership (reqWithFires req n) = stubbleMembership req := rfl

theorem stubbleSeason_fires (req : Request) (n : ℕ) :
    stubbleSeason (reqWithFires req n) = stubbleSeason req := rfl

theorem otherWeight_fires (req : Request) (n : ℕ) :
    otherWeight (reqWithFires req n) = otherWeight req := rfl

theorem totalWeight_split (req : Request) :
    totalWeight req = weighted req .stubble_burning + otherWeight req := by
  rw [totalWeight_eq]
  unfold otherWeight
  ring

theorem otherWeight_pos (req : Request) : 0 < otherWeight req := by
  unfold otherWeight
  have h2 := weighted_pos req .traffic
  have h3 := weighted_pos req .secondary_aerosols
  have h4 := weighted_pos req .dust
  have h5 := weighted_pos req .local_combustion
  linarith

theorem percentage_stubble (req : Request) :
    percentage req .stubble_burning =
      100 * weighted req .stubble_burning /
        (weighted req .stubble_burning + otherWeight req) := by
  rw [percentage, totalWeight_split]

theorem ratio_mono {a b c : ℚ} (ha : 0 ≤ a) (hab : a ≤ b) (hc : 0 < c) :
    100 * a / (a + c) ≤ 100 * b / (b + c) := by
  have h1 : 0 < a + c := by linarith
  have h2 : 0 < b + c := by linarith
  rw [div_le_div_iff₀ h1 h2]
  nlinarith [mul_nonneg (sub_nonneg.mpr hab) hc.le]

theorem seasonWeight_nonneg (t : SeasonTier) : 0 ≤ seasonWeight t := by
  cases t <;> norm_num [seasonWeight]

theorem stubbleFactor_mono (req : Request) {n m : ℕ} (h : n ≤ m) :
    stubbleFactor (reqWithFires req n) ≤ stubbleFactor (reqWithFires req m) := by
  unfold stubbleFactor
  rw [stubbleMembership_fires, stubbleMembership_fires, stubbleSeason_fires,
    stubbleSeason_fires, reqWithFires_fire_count, reqWithFires_fire_count]
  by_cases hc : 0 < stubbleMembership req ∧
      (stubbleSeason req = .active ∨ stubbleSeason req = .shoulder)
  · rw [if_pos hc, if_pos hc]
    apply clampFactor_mono
    apply mul_le_mul_of_nonneg_left
    · have hmin : ((min n 400 : ℕ) : ℚ) ≤ ((min m 400 : ℕ) : ℚ) := by
        exact_mod_cast min_le_min h le_rfl
      linarith
    · exact mul_nonneg hc.1.le (seasonWeight_nonneg _)
  · rw [if_neg hc, if_neg hc]

theorem stubbleFactor_unfavored (req : Request) (n : ℕ)
    (h0 : stubbleMembership req = 0) :
    stubbleFactor (reqWithFires req n) = 1 / 10 := by
  unfold stubbleFactor
  rw [if_neg]
  rw [stubbleMembership_fires, h0]
  rintro ⟨h1, _⟩
  exact lt_irrefl 0 h1

/-- Claim C2: holding all other request fields fixed, increasing fire_count
never decreases the geographically-sourced combustion source's percentage
when both the wind sector and the season favor it, and never increases that
percentage when the wind sector does not favor it (the factor is pinned at
the floor, so the percentage is unchanged); for the Nov 5 2025 01:00 input
with wind_dir 114 and fire_count 316 the source's percentage is at most 12. -/
theorem fire_count_monotonicity :
    (∀ (req : Request) (n m : ℕ), stubbleFavored req → n ≤ m →
        percentage (reqWithFires req n) .stubble_burning ≤
          percentage (reqWithFires req m) .stubble_burning) ∧
    (∀ (req : Request) (n m : ℕ), stubbleMembership req = 0 → n ≤ m →
        percentage (reqWithFires req m) .stubble_burning ≤
          percentage (reqWithFires req n) .stubble_burning) ∧
    percentage nov5Request .stubble_burning ≤ 12 := by
  refine ⟨?_, ?_, ?_⟩
  · intro req n m _hf h
    rw [percentage_stubble, percentage_stubble, otherWeight_fires, otherWeight_fires]
    refine ratio_mono (weighted_pos _ _).le ?_ (otherWeight_pos req)
    unfold weighted modulationFactor
    exact mul_le_mul_of_nonneg_left (stubbleFactor_mono req h) (prior_pos _).le
  · intro req n m h0 _h
    rw [percentage_stubble, percentage_stubble, otherWeight_fires, otherWeight_fires]
    have hw : weighted (reqWithFires req m) .stubble_burning =
        weighted (reqWithFires req n) .stubble_burning := by
      unfold weighted modulationFactor
      rw [stubbleFactor_unfavored req m h0, stubbleFactor_unfavored req n h0]
    rw [hw]
  · norm_num [percentage, totalWeight, sourceList, weighted, prior,
      modulationFactor, stubbleFactor, trafficFactor, secondaryFactor,
      dustFactor, localFactor, clampFactor, stubbleMembership, stubbleSeason,
      sectorMembership, circDist, wrapDeg, trappingTier, seasonTierFor,
      stubbleActiveMonths, dustActiveMonths, seasonWeight, nextMonth,
      prevMonth, nov5Request]

theorem fire_count_monotonicity_witness :
    percentage (reqWithFires nov8Request 100) .stubble_burning ≤
        percentage (reqWithFires nov8Request 356) .stubble_burning ∧
      percentage (reqWithFires nov5Request 400) .stubble_burning ≤
        percentage (reqWithFires nov5Request 316) .stubble_burning :=
  ⟨fire_count_monotonicity.1 nov8Request 100 356
      (by constructor
          · norm_num [stubbleMembership, sectorMembership, circDist, wrapDeg,
              nov8Request]
          · left
            norm_num [stubbleSeason, seasonTierFor, stubbleActiveMonths,
              nov8Request])
      (by norm_num),
    fire_count_monotonicity.2.1 nov5Request 316 400
      (by norm_num [stubbleMembership, sectorMembership, circDist, wrapDeg,
          nov5Request])
      (by norm_num)⟩

/-! ## Validation-suite claims (run_test) -/

/-- Claim C3: the validation suite classifies a source as elevated exactly
when its reported level is High or Medium or its percentage is at least 15,
and as low exactly when its percentage is at most 12; a test case passes
exactly (in particular, only) when every expected-elevated source meets the
former and every expected-low source meets the latter. -/
theorem run_test_validation_iff (c : List (String × SourceResult))
    (hs ls : List String) :
    runTestValidation c hs ls = true ↔
      ((∀ s ∈ hs, (getLevel c s = "High" ∨ getLevel c s = "Medium") ∨
          15 ≤ getPct c s) ∧
        (∀ s ∈ ls, getPct c s ≤ 12)) := by
  simp [runTestValidation, elevatedCheck, lowCheck, List.all_eq_true]

theorem run_test_validation_iff_witness :
    runTestValidation
        [("secondary_aerosols", SourceResult.mk 46 "High"),
          ("stubble_burning", SourceResult.mk (3 / 2) "Low")]
        ["secondary_aerosols"] ["stubble_burning"] = true :=
  (run_test_validation_iff _ _ _).mpr
    (by constructor
        · intro s hsmem
          rw [List.mem_singleton] at hsmem
          subst hsmem
          left
          left
          rfl
        · intro s hsmem
          rw [List.mem_singleton] at hsmem
          subst hsmem
          show (3 / 2 : ℚ) ≤ 12
          norm_num)

/-- Claim C4 counterexample: the claim says the suite's expected-high check
succeeds only if the returned level field equals "High"; but the check
(run_test lines 382-391) also succeeds on a response whose level is "Medium"
(and likewise on percentage alone), as this concrete contributions mapping
shows. -/
theorem elevated_check_medium_counterexample :
    elevatedCheck [("secondary_aerosols", SourceResult.mk 20 "Medium")]
        "secondary_aerosols" = true ∧
      getLevel [("secondary_aerosols", SourceResult.mk 20 "Medium")]
        "secondary_aerosols" ≠ "High" := by
  constructor
  · rfl
  · decide

/-- Claim C4 (amended): the validation suite's expected-high check for a
source succeeds exactly when the returned level field equals "High" or
"Medium", or the returned percentage is at least 15; a returned level of
"High" is thus sufficient but not necessary. -/
theorem elevated_check_iff (c : List (String × SourceResult)) (s : String) :
    elevatedCheck c s = true ↔
      ((getLevel c s = "High" ∨ getLevel c s = "Medium") ∨ 15 ≤ getPct c s) := by
  simp [elevatedCheck]

theorem elevated_check_iff_witness :
    elevatedCheck [("secondary_aerosols", SourceResult.mk 52 "High")]
        "secondary_aerosols" = true :=
  (elevated_check_iff _ _).mpr (Or.inl (Or.inl rfl))

/-! ## find_matching_station lemmas -/

theorem findMatchingAux_exact (ratio : String → String → ℚ) (rssNorm : String) :
    ∀ (rows : List StationMeta) (best : Option StationMeta) (bs : ℚ),
      (∃ r ∈ rows, normalize_station_name r.station_name = rssNorm) →
      ∃ r, findMatchingAux ratio rssNorm rows best bs = some r ∧ r ∈ rows ∧
        normalize_station_name r.station_name = rssNorm := by
  intro rows
  induction rows with
  | nil =>
    intro best bs h
    simp at h
  | cons row rest ih =>
    intro best bs h
    by_cases he : rssNorm = normalize_station_name row.station_name
    · refine ⟨row, ?_, List.mem_cons_self _ _, he.symm⟩
      unfold findMatchingAux
      rw [if_pos he]
    · have h2 : ∃ r ∈ rest, normalize_station_name r.station_name = rssNorm := by
        rcases h with ⟨r, hmem, hr⟩
        rcases List.mem_cons.mp hmem with rfl | hmem2
        · exact absurd hr.symm he
        · exact ⟨r, hmem2, hr⟩
      unfold findMatchingAux
      rw [if_neg he]
      split
      · rcases ih (some row) (ratio rssNorm (normalize_station_name row.station_name))
          h2 with ⟨r, hq, hmem, hr⟩
        exact ⟨r, hq, List.mem_cons_of_mem _ hmem, hr⟩
      · rcases ih best bs h2 with ⟨r, hq, hmem, hr⟩
        exact ⟨r, hq, List.mem_cons_of_mem _ hmem, hr⟩

theorem findMatchingAux_fuzzy (ratio : String → String → ℚ) (rssNorm : String) :
    ∀ (rows : List StationMeta) (best : Option StationMeta) (bs : ℚ),
      (∀ r ∈ rows, normalize_station_name r.station_name ≠ rssNorm) →
      ((findMatchingAux ratio rssNorm rows best bs = best ∧
          ∀ r ∈ rows, ratio rssNorm (normalize_station_name r.station_name) ≤ bs ∨
            ratio rssNorm (normalize_station_name r.station_name) ≤ 3 / 5) ∨
        ∃ r ∈ rows, findMatchingAux ratio rssNorm rows best bs = some r ∧
          bs < ratio rssNorm (normalize_station_name r.station_name) ∧
          3 / 5 < ratio rssNorm (normalize_station_name r.station_name) ∧
          ∀ r2 ∈ rows, ratio rssNorm (normalize_station_name r2.station_name) ≤
            ratio rssNorm (normalize_station_name r.station_name)) := by
  intro rows
  induction rows with
  | nil =>
    intro best bs _
    left
    exact ⟨rfl, by simp⟩
  | cons row rest ih =>
    intro best bs hne
    have hrow : rssNorm ≠ normalize_station_name row.station_name :=
      fun h => hne row (List.mem_cons_self _ _) h.symm
    have hrest : ∀ r ∈ rest, normalize_station_name r.station_name ≠ rssNorm :=
      fun r hr => hne r (List.mem_cons_of_mem _ hr)
    unfold findMatchingAux
    rw [if_neg hrow]
    by_cases hc : bs < ratio rssNorm (normalize_station_name row.station_name) ∧
        3 / 5 < ratio rssNorm (normalize_station_name row.station_name)
    · rw [if_pos hc]
      rcases ih (some row) (ratio rssNorm (normalize_station_name row.station_name))
        hrest with ⟨heq, hall⟩ | ⟨r, hmem, heq, hbs, hth, hmax⟩
      · right
        refine ⟨row, List.mem_cons_self _ _, heq, hc.1, hc.2, ?_⟩
        intro r2 h2
        rcases List.mem_cons.mp h2 with rfl | h3
        · exact le_rfl
        · rcases hall r2 h3 with h4 | h4
          · exact h4
          · exact le_trans h4 hc.2.le
      · right
        refine ⟨r, List.mem_cons_of_mem _ hmem, heq, lt_trans hc.1 hbs, hth, ?_⟩
        intro r2 h2
        rcases List.mem_cons.mp h2 with rfl | h3
        · exact hbs.le
        · exact hmax r2 h3
    · rw [if_neg hc]
      have hor : ratio rssNorm (normalize_station_name row.station_name) ≤ bs ∨
          ratio rssNorm (normalize_station_name row.station_name) ≤ 3 / 5 := by
        rcases not_and_or.mp hc with h | h
        · exact Or.inl (not_lt.mp h)
        · exact Or.inr (not_lt.mp h)
      rcases ih best bs hrest with ⟨heq, hall⟩ | ⟨r, hmem, heq, hbs, hth, hmax⟩
      · left
        refine ⟨heq, ?_⟩
        intro r2 h2
        rcases List.mem_cons.mp h2 with rfl | h3
        · exact hor
        · exact hall r2 h3
      · right
        refine ⟨r, List.mem_cons_of_mem _ hmem, heq, hbs, hth, ?_⟩
        intro r2 h2
        rcases List.mem_cons.mp h2 with rfl | h3
        · rcases hor with h4 | h4
          · exact le_trans h4 hbs.le
          · exact le_trans h4 hth.le
        · exact hmax r2 h3

/-- Claim C5: for every RSS station name and metadata table,
find_matching_station returns a row whose normalized name equals the
normalized RSS name whenever such a row exists (exact match takes priority);
otherwise it returns a row attaining the greatest similarity ratio among the
rows, provided that ratio exceeds the fixed threshold 0.6, and returns no
match when no row exceeds the threshold. -/
theorem find_matching_station_spec (ratio : String → String → ℚ)
    (rssName : String) (rows : List StationMeta) :
    ((∃ r ∈ rows, normalize_station_name r.station_name =
        normalize_station_name rssName) →
      ∃ r, find_matching_station ratio rssName rows = some r ∧ r ∈ rows ∧
        normalize_station_name r.station_name = normalize_station_name rssName) ∧
    ((∀ r ∈ rows, normalize_station_name r.station_name ≠
        normalize_station_name rssName) →
      ((∃ r ∈ rows, 3 / 5 < ratio (normalize_station_name rssName)
          (normalize_station_name r.station_name)) →
        ∃ r, find_matching_station ratio rssName rows = some r ∧ r ∈ rows ∧
          3 / 5 < ratio (normalize_station_name rssName)
            (normalize_station_name r.station_name) ∧
          ∀ r2 ∈ rows, ratio (normalize_station_name rssName)
              (normalize_station_name r2.station_name) ≤
            ratio (normalize_station_name rssName)
              (normalize_station_name r.station_name)) ∧
      ((∀ r ∈ rows, ratio (normalize_station_name rssName)
          (normalize_station_name r.station_name) ≤ 3 / 5) →
        find_matching_station ratio rssName rows = none)) := by
  constructor
  · intro h
    exact findMatchingAux_exact ratio _ rows none 0 h
  · intro hne
    constructor
    · intro hex
      rcases findMatchingAux_fuzzy ratio (normalize_station_name rssName) rows
        none 0 hne with ⟨_, hall⟩ | ⟨r, hmem, heq, _, hth, hmax⟩
      · exfalso
        rcases hex with ⟨r, hmem, hr⟩
        rcases hall r hmem with h4 | h4
        · linarith
        · linarith
      · exact ⟨r, heq, hmem, hth, hmax⟩
    · intro hall
      rcases findMatchingAux_fuzzy ratio (normalize_station_name rssName) rows
        none 0 hne with ⟨heq, _⟩ | ⟨r, hmem, _, _, hth, _⟩
      · exact heq
      · exact absurd (hall r hmem) (not_le.mpr hth)

theorem find_matching_station_spec_witness :
    ∃ r, find_matching_station (fun _ _ => 1 / 2) "Anand Vihar - DPCC"
        [StationMeta.mk "Jahangirpuri" "j.csv",
          StationMeta.mk "Anand Vihar" "a.csv"] = some r ∧
      r ∈ [StationMeta.mk "Jahangirpuri" "j.csv",
        StationMeta.mk "Anand Vihar" "a.csv"] ∧
      normalize_station_name r.station_name =
        normalize_station_name "Anand Vihar - DPCC" :=
  (find_matching_station_spec (fun _ _ => 1 / 2) "Anand Vihar - DPCC"
      [StationMeta.mk "Jahangirpuri" "j.csv",
        StationMeta.mk "Anand Vihar" "a.csv"]).1
    ⟨StationMeta.mk "Anand Vihar" "a.csv", by decide⟩

/-! ## backfill_wind.main: the get_last_timestamp NameError -/

/-- Claim C6 (code-bug evidence): whenever the stations metadata file exists,
and in particular when wind_stations.csv also holds at least one timestamped
row, backfill_wind.main raises an uncaught NameError at line 124: it calls
get_last_timestamp(), a name bound nowhere in the module (the function
defined at line 37 is get_station_timestamps, and it returns a pair), so
main never determines the last recorded timestamp and never reaches the
fetch-and-append phase. -/
theorem backfill_main_raises_name_error (stationsFileExists : Bool)
    (windRows : List WindRow) (hs : stationsFileExists = true)
    (_hr : windRows ≠ []) :
    backfill_main stationsFileExists windRows =
      .error (.nameError "get_last_timestamp") := by
  subst hs
  rfl

theorem backfill_main_raises_name_error_witness :
    backfill_main true [sampleWindRow] =
      .error (.nameError "get_last_timestamp") :=
  backfill_main_raises_name_error true [sampleWindRow] rfl
    (List.cons_ne_nil _ _)

/-! ## update_station_csv lemmas -/

theorem any_localTime_eq_false {df : List CsvRow} {t : ℤ}
    (h : ¬df.any (fun r => r.localTime == t) = true) :
    t ∉ df.map CsvRow.localTime := by
  intro hmem
  rcases List.mem_map.mp hmem with ⟨r, hr, hrt⟩
  exact h (List.any_eq_true.mpr ⟨r, hr, by simp [hrt]⟩)

/-- Claim C7: for every station file whose existing rows carry
pairwise-distinct Local Time timestamps, update_station_csv preserves every
existing row, appends at most one new row, and leaves the timestamps
pairwise distinct; when the incoming reading's timestamp already occurs in
the file, the call returns False and the file is unchanged. -/
theorem update_station_csv_preserves (df : List CsvRow) (rss : CpcbRecord)
    (hdist : (df.map CsvRow.localTime).Nodup) :
    (∀ r ∈ df, r ∈ (update_station_csv df rss).2) ∧
    (update_station_csv df rss).2.length ≤ df.length + 1 ∧
    ((update_station_csv df rss).2.map CsvRow.localTime).Nodup ∧
    (rss.timestamp ∈ df.map CsvRow.localTime →
      (update_station_csv df rss).1 = false ∧
        (update_station_csv df rss).2 = df) := by
  unfold update_station_csv
  by_cases hdup : df.any (fun r => r.localTime == rss.timestamp) = true
  · rw [if_pos hdup]
    exact ⟨fun r hr => hr, Nat.le_succ _, hdist, fun _ => ⟨rfl, rfl⟩⟩
  · rw [if_neg hdup]
    have hts : rss.timestamp ∉ df.map CsvRow.localTime := any_localTime_eq_false hdup
    by_cases hpm : "PM25" ∈ (newRowCols rss.pollutants).map Prod.fst ∨
        "PM10" ∈ (newRowCols rss.pollutants).map Prod.fst
    · rw [if_pos hpm]
      have hperm := List.perm_insertionSort
        (fun a b : CsvRow => a.localTime ≤ b.localTime)
        (df ++ [CsvRow.mk rss.timestamp (newRowCols rss.pollutants)])
      refine ⟨?_, ?_, ?_, ?_⟩
      · intro r hr
        exact hperm.mem_iff.mpr (List.mem_append_left _ hr)
      · rw [hperm.length_eq, List.length_append]
        simp
      · refine (hperm.map CsvRow.localTime).nodup_iff.mpr ?_
        rw [List.map_append]
        rw [List.nodup_append]
        refine ⟨hdist, List.nodup_singleton _, ?_⟩
        simp only [List.map_cons, List.map_nil]
        rw [List.disjoint_singleton]
        exact hts
      · intro hmem
        exact absurd hmem hts
    · rw [if_neg hpm]
      exact ⟨fun r hr => hr, Nat.le_succ _, hdist, fun _ => ⟨rfl, rfl⟩⟩

theorem update_station_csv_preserves_witness :
    (∀ r ∈ sampleCsv, r ∈ (update_station_csv sampleCsv sampleRecord).2) ∧
    (update_station_csv sampleCsv sampleRecord).2.length ≤
      sampleCsv.length + 1 ∧
    ((update_station_csv sampleCsv sampleRecord).2.map CsvRow.localTime).Nodup ∧
    (sampleRecord.timestamp ∈ sampleCsv.map CsvRow.localTime →
      (update_station_csv sampleCsv sampleRecord).1 = false ∧
        (update_station_csv sampleCsv sampleRecord).2 = sampleCsv) :=
  update_station_csv_preserves sampleCsv sampleRecord
    (by show ([10] : List ℤ).Nodup
        exact List.nodup_singleton _)

theorem lookup_eq_none_of_not_mem_keys {β : Type} (k : String)
    (l : List (String × β)) (h : k ∉ l.map Prod.fst) : List.lookup k l = none := by
  induction l with
  | nil => rfl
  | cons a rest ih =>
    simp only [List.map_cons, List.mem_cons, not_or] at h
    have hne : (k == a.1) = false := by
      rw [beq_eq_false_iff_ne]
      exact h.1
    show (match k == a.1 with
      | true => some a.2
      | false => List.lookup k rest) = none
    rw [hne]
    exact ih h.2

theorem mem_fst_lookup_filterMap (pm : List (String × String))
    (p : List (String × ℚ)) (c : String) :
    c ∈ (pm.filterMap fun kc =>
        match List.lookup kc.1 p with
        | some v => some (kc.2, v)
        | none => none).map Prod.fst ↔
      ∃ kc ∈ pm, kc.2 = c ∧ (List.lookup kc.1 p).isSome := by
  induction pm with
  | nil => simp
  | cons a rest ih =>
    cases h : List.lookup a.1 p with
    | none =>
      simp only [List.filterMap_cons, h, ih, List.mem_cons]
      constructor
      · intro h2
        rcases h2 with ⟨kc, hkc, hc, hsome⟩
        exact ⟨kc, Or.inr hkc, hc, hsome⟩
      · rintro ⟨kc, hkc | hkc, hc, hsome⟩
        · subst hkc
          rw [h] at hsome
          exact absurd hsome (by simp)
        · exact ⟨kc, hkc, hc, hsome⟩
    | some v =>
      simp only [List.filterMap_cons, h, List.map_cons, List.mem_cons, ih]
      constructor
      · rintro (hc | ⟨kc, hkc, hc, hsome⟩)
        · exact ⟨a, Or.inl rfl, hc.symm, by rw [h]; simp⟩
        · exact ⟨kc, Or.inr hkc, hc, hsome⟩
      · rintro ⟨kc, hkc | hkc, hc, hsome⟩
        · subst hkc
          exact Or.inl hc.symm
        · exact Or.inr ⟨kc, hkc, hc, hsome⟩

theorem pm25_mem_newRowCols (p : List (String × ℚ)) :
    "PM25" ∈ (newRowCols p).map Prod.fst ↔ (List.lookup "PM2.5" p).isSome := by
  unfold newRowCols
  rw [mem_fst_lookup_filterMap]
  simp [POLLUTANT_MAP]

theorem pm10_mem_newRowCols (p : List (String × ℚ)) :
    "PM10" ∈ (newRowCols p).map Prod.fst ↔ (List.lookup "PM10" p).isSome := by
  unfold newRowCols
  rw [mem_fst_lookup_filterMap]
  simp [POLLUTANT_MAP]

/-- Claim C9: update_station_csv appends a row and returns True only when
the new row carries a PM25 or a PM10 column; for every incoming reading
containing neither a PM2.5 nor a PM10 value it returns False and the station
file is left unchanged, so readings with only gas-phase pollutants are
silently discarded. -/
theorem update_station_csv_requires_pm (df : List CsvRow) (rss : CpcbRecord) :
    ((update_station_csv df rss).1 = true →
      "PM25" ∈ (newRowCols rss.pollutants).map Prod.fst ∨
        "PM10" ∈ (newRowCols rss.pollutants).map Prod.fst) ∧
    (("PM2.5" ∉ rss.pollutants.map Prod.fst ∧
        "PM10" ∉ rss.pollutants.map Prod.fst) →
      update_station_csv df rss = (false, df)) := by
  constructor
  · intro h
    unfold update_station_csv at h
    by_cases hdup : df.any (fun r => r.localTime == rss.timestamp) = true
    · rw [if_pos hdup] at h
      exact absurd h (by simp)
    · rw [if_neg hdup] at h
      by_cases hpm : "PM25" ∈ (newRowCols rss.pollutants).map Prod.fst ∨
          "PM10" ∈ (newRowCols rss.pollutants).map Prod.fst
      · exact hpm
      · rw [if_neg hpm] at h
        exact absurd h (by simp)
  · rintro ⟨h1, h2⟩
    have l1 : List.lookup "PM2.5" rss.pollutants = none :=
      lookup_eq_none_of_not_mem_keys _ _ h1
    have l2 : List.lookup "PM10" rss.pollutants = none :=
      lookup_eq_none_of_not_mem_keys _ _ h2
    have hno : ¬("PM25" ∈ (newRowCols rss.pollutants).map Prod.fst ∨
        "PM10" ∈ (newRowCols rss.pollutants).map Prod.fst) := by
      rw [pm25_mem_newRowCols, pm10_mem_newRowCols, l1, l2]
      simp
    unfold update_station_csv
    by_cases hdup : df.any (fun r => r.localTime == rss.timestamp) = true
    · rw [if_pos hdup]
    · rw [if_neg hdup, if_neg hno]

theorem update_station_csv_requires_pm_witness :
    update_station_csv sampleCsv sampleGasRecord = (false, sampleCsv) :=
  (update_station_csv_requires_pm sampleCsv sampleGasRecord).2
    (by constructor
        · show "PM2.5" ∉ ["NO2", "CO"]
          decide
        · show "PM10" ∉ ["NO2", "CO"]
          decide)

/-! ## backfill_wind combine-and-deduplicate lemmas -/

theorem dropDupKeepLast_subset :
    ∀ (l : List WindRow), ∀ r ∈ dropDupKeepLast l, r ∈ l := by
  intro l
  induction l with
  | nil =>
    intro r hr
    exact absurd hr (List.not_mem_nil r)
  | cons a rest ih =>
    intro r hr
    unfold dropDupKeepLast at hr
    by_cases h : rest.any (fun x => windKey x == windKey a) = true
    · rw [if_pos h] at hr
      exact List.mem_cons_of_mem _ (ih r hr)
    · rw [if_neg h] at hr
      rcases List.mem_cons.mp hr with rfl | h2
      · exact List.mem_cons_self _ _
      · exact List.mem_cons_of_mem _ (ih r h2)

theorem dropDupKeepLast_keys_nodup :
    ∀ l : List WindRow, ((dropDupKeepLast l).map windKey).Nodup := by
  intro l
  induction l with
  | nil => simp [dropDupKeepLast]
  | cons a rest ih =>
    unfold dropDupKeepLast
    by_cases h : rest.any (fun x => windKey x == windKey a) = true
    · rw [if_pos h]
      exact ih
    · rw [if_neg h]
      simp only [List.map_cons]
      rw [List.nodup_cons]
      refine ⟨?_, ih⟩
      intro hmem
      rcases List.mem_map.mp hmem with ⟨x, hx, hkey⟩
      exact h (List.any_eq_true.mpr
        ⟨x, dropDupKeepLast_subset rest x hx, by simp [hkey]⟩)

theorem dropDupKeepLast_key_covered :
    ∀ l : List WindRow, ∀ k ∈ l.map windKey,
      k ∈ (dropDupKeepLast l).map windKey := by
  intro l
  induction l with
  | nil =>
    intro k hk
    exact absurd hk (by simp)
  | cons a rest ih =>
    intro k hk
    unfold dropDupKeepLast
    rcases List.mem_map.mp hk with ⟨x, hx, rfl⟩
    by_cases h : rest.any (fun y => windKey y == windKey a) = true
    · rw [if_pos h]
      rcases List.mem_cons.mp hx with rfl | h2
      · rcases List.any_eq_true.mp h with ⟨y, hy, hkey⟩
        have hk2 : windKey y = windKey x := by simpa using hkey
        exact hk2 ▸ ih (windKey y) (List.mem_map_of_mem windKey hy)
      · exact ih (windKey x) (List.mem_map_of_mem windKey h2)
    · rw [if_neg h]
      simp only [List.map_cons]
      rcases List.mem_cons.mp hx with rfl | h2
      · exact List.mem_cons_self _ _
      · exact List.mem_cons_of_mem _ (ih (windKey x) (List.mem_map_of_mem windKey h2))

theorem dropDupKeepLast_new_preferred :
    ∀ (l1 l2 : List WindRow), ∀ r ∈ dropDupKeepLast (l1 ++ l2),
      windKey r ∈ l2.map windKey → r ∈ l2 := by
  intro l1
  induction l1 with
  | nil =>
    intro l2 r hr _
    exact dropDupKeepLast_subset l2 r (by simpa using hr)
  | cons a rest ih =>
    intro l2 r hr hk
    rw [List.cons_append] at hr
    unfold dropDupKeepLast at hr
    by_cases h : (rest ++ l2).any (fun x => windKey x == windKey a) = true
    · rw [if_pos h] at hr
      exact ih l2 r hr hk
    · rw [if_neg h] at hr
      rcases List.mem_cons.mp hr with rfl | h2
      · exfalso
        rcases List.mem_map.mp hk with ⟨y, hy, hkey⟩
        exact h (List.any_eq_true.mpr
          ⟨y, List.mem_append_right rest hy, by simp [hkey]⟩)
      · exact ih l2 r h2 hk

/-- Claim C8: after the backfill job concatenates the existing wind table
with the newly fetched rows and deduplicates on (timestamp, station_id)
keeping the last occurrence, the saved table has at most one row per key,
every input key is still represented, and every kept row whose key occurs
among the newly fetched rows is itself a newly fetched row - so on any
(timestamp, station_id) conflict between an existing and a newly fetched
row, the newly fetched row is the one kept. -/
theorem combine_dedup_unique_prefers_new (existing newRows : List WindRow) :
    ((combineAndDedup existing newRows).map windKey).Nodup ∧
    (∀ k ∈ (existing ++ newRows).map windKey,
      k ∈ (combineAndDedup existing newRows).map windKey) ∧
    (∀ r ∈ combineAndDedup existing newRows,
      windKey r ∈ newRows.map windKey → r ∈ newRows) := by
  have hperm := List.perm_insertionSort windLe (dropDupKeepLast (existing ++ newRows))
  refine ⟨?_, ?_, ?_⟩
  · exact (hperm.map windKey).nodup_iff.mpr
      (dropDupKeepLast_keys_nodup (existing ++ newRows))
  · intro k hk
    exact (hperm.map windKey).mem_iff.mpr
      (dropDupKeepLast_key_covered (existing ++ newRows) k hk)
  · intro r hr hk
    exact dropDupKeepLast_new_preferred existing newRows r (hperm.mem_iff.mp hr) hk

theorem combine_dedup_unique_prefers_new_witness :
    windRowNew ∈ [windRowNew] :=
  (combine_dedup_unique_prefers_new [windRowOld] [windRowNew]).2.2 windRowNew
    (by show windRowNew ∈ [windRowNew]
        exact List.mem_cons_self _ _)
    (by show windKey windRowNew ∈ [windKey windRowNew]
        exact List.mem_cons_self _ _)

/-! ## parse_rss_feed lemmas -/

theorem mem_dictUpsert {α : Type} (k : String) (v : α) :
    ∀ (l : List (String × α)) (e : String × α),
      e ∈ dictUpsert k v l → e = (k, v) ∨ e ∈ l := by
  intro l
  induction l with
  | nil =>
    intro e he
    unfold dictUpsert at he
    exact Or.inl (List.mem_singleton.mp he)
  | cons a rest ih =>
    obtain ⟨a1, a2⟩ := a
    intro e he
    unfold dictUpsert at he
    by_cases hk : a1 = k
    · rw [if_pos hk] at he
      rcases List.mem_cons.mp he with rfl | h2
      · exact Or.inl rfl
      · exact Or.inr (List.mem_cons_of_mem _ h2)
    · rw [if_neg hk] at he
      rcases List.mem_cons.mp he with rfl | h2
      · exact Or.inr (List.mem_cons_self _ _)
      · rcases ih e h2 with h3 | h3
        · exact Or.inl h3
        · exact Or.inr (List.mem_cons_of_mem _ h3)

theorem pollutantBase_fold_mem (parseFloat : String → Option ℚ) (st : Xml) :
    ∀ (l : List Xml) (acc : List (String × PVal)),
      (∀ x ∈ l, x ∈ st.children ∧ x.tag = "Pollutant_Index") →
      (∀ p ∈ acc, p.1 = "AQI" ∨ ∃ q hv pe, p.2 = PVal.num q ∧
        pe ∈ st.children ∧ pe.tag = "Pollutant_Index" ∧
        attrGet pe "Hourly_sub_index" = some hv ∧ hv ≠ "NA" ∧
        parseFloat hv = some q) →
      ∀ p ∈ l.foldl
        (fun acc p =>
          match attrGet p "id", attrGet p "Hourly_sub_index" with
          | some pid, some hv =>
            if pid ≠ "" ∧ hv ≠ "" ∧ hv ≠ "NA" then
              match parseFloat hv with
              | some q => dictUpsert pid (PVal.num q) acc
              | none => acc
            else acc
          | _, _ => acc) acc,
        p.1 = "AQI" ∨ ∃ q hv pe, p.2 = PVal.num q ∧ pe ∈ st.children ∧
          pe.tag = "Pollutant_Index" ∧ attrGet pe "Hourly_sub_index" = some hv ∧
          hv ≠ "NA" ∧ parseFloat hv = some q := by
  intro l
  induction l with
  | nil =>
    intro acc _ hacc p hp
    exact hacc p hp
  | cons pe rest ih =>
    intro acc hl hacc p hp
    rw [List.foldl_cons] at hp
    refine ih _ (fun x hx => hl x (List.mem_cons_of_mem _ hx)) ?_ p hp
    intro p2 hp2
    rcases hl pe (List.mem_cons_self _ _) with ⟨hpe_mem, hpe_tag⟩
    cases hid : attrGet pe "id" with
    | none =>
      simp only [hid] at hp2
      exact hacc p2 hp2
    | some pid =>
      cases hhv : attrGet pe "Hourly_sub_index" with
      | none =>
        simp only [hid, hhv] at hp2
        exact hacc p2 hp2
      | some hv =>
        simp only [hid, hhv] at hp2
        by_cases hcond : pid ≠ "" ∧ hv ≠ "" ∧ hv ≠ "NA"
        · rw [if_pos hcond] at hp2
          cases hq : parseFloat hv with
          | none =>
            simp only [hq] at hp2
            exact hacc p2 hp2
          | some q =>
            simp only [hq] at hp2
            rcases mem_dictUpsert pid (PVal.num q) acc p2 hp2 with rfl | h3
            · exact Or.inr ⟨q, hv, pe, rfl, hpe_mem, hpe_tag, hhv, hcond.2.2, hq⟩
            · exact hacc p2 h3
        · rw [if_neg hcond] at hp2
          exact hacc p2 hp2

theorem pollutantsOf_mem (parseFloat : String → Option ℚ) (st : Xml) :
    ∀ p ∈ pollutantsOf parseFloat st, p.1 = "AQI" ∨
      ∃ q hv pe, p.2 = PVal.num q ∧ pe ∈ st.children ∧
        pe.tag = "Pollutant_Index" ∧ attrGet pe "Hourly_sub_index" = some hv ∧
        hv ≠ "NA" ∧ parseFloat hv = some q := by
  have hbase : ∀ p ∈ pollutantBase parseFloat st, p.1 = "AQI" ∨
      ∃ q hv pe, p.2 = PVal.num q ∧ pe ∈ st.children ∧
        pe.tag = "Pollutant_Index" ∧ attrGet pe "Hourly_sub_index" = some hv ∧
        hv ≠ "NA" ∧ parseFloat hv = some q := by
    intro p hp
    refine pollutantBase_fold_mem parseFloat st _ [] ?_ (by simp) p hp
    intro x hx
    rcases List.mem_filter.mp hx with ⟨h1, h2⟩
    exact ⟨h1, by simpa using h2⟩
  intro p hp
  unfold pollutantsOf at hp
  cases hfind : st.children.find? (fun c => c.tag = "Air_Quality_Index") with
  | none =>
    rw [hfind] at hp
    exact hbase p hp
  | some aqi =>
    rw [hfind] at hp
    rcases mem_dictUpsert "AQI" (PVal.rawStr (attrGet aqi "Value"))
      (pollutantBase parseFloat st) p hp with rfl | h2
    · exact Or.inl rfl
    · exact hbase p h2

theorem buildStations_fold_mem (parseTs : String → Option ℤ)
    (parseFloat : String → Option ℚ) :
    ∀ (l : List Xml) (acc : List (String × StationData)),
      ∀ e ∈ l.foldl
        (fun acc st =>
          match stationEntry parseTs parseFloat st with
          | some e => dictUpsert e.1 e.2 acc
          | none => acc) acc,
        e ∈ acc ∨ ∃ st ∈ l, stationEntry parseTs parseFloat st = some e := by
  intro l
  induction l with
  | nil =>
    intro acc e he
    exact Or.inl he
  | cons st rest ih =>
    intro acc e he
    rw [List.foldl_cons] at he
    cases hse : stationEntry parseTs parseFloat st with
    | none =>
      simp only [hse] at he
      rcases ih _ e he with h1 | ⟨st2, hmem, he2⟩
      · exact Or.inl h1
      · exact Or.inr ⟨st2, List.mem_cons_of_mem _ hmem, he2⟩
    | some e2 =>
      simp only [hse] at he
      rcases ih _ e he with h1 | ⟨st2, hmem, he2⟩
      · rcases mem_dictUpsert e2.1 e2.2 acc e h1 with h3 | h3
        · have he3 : e = e2 := h3.trans (Prod.mk.eta)
          subst he3
          exact Or.inr ⟨st, List.mem_cons_self _ _, hse⟩
        · exact Or.inl h3
      · exact Or.inr ⟨st2, List.mem_cons_of_mem _ hmem, he2⟩

theorem buildStations_mem (parseTs : String → Option ℤ)
    (parseFloat : String → Option ℚ) (root : Xml) :
    ∀ e ∈ buildStations parseTs parseFloat root,
      ∃ st ∈ iterTag "Station" root,
        stationEntry parseTs parseFloat st = some e := by
  intro e he
  unfold buildStations at he
  rcases buildStations_fold_mem parseTs parseFloat
    (iterTag "Station" root) [] e he with h1 | h1
  · exact absurd h1 (List.not_mem_nil e)
  · exact h1

theorem stationEntry_omits (parseTs : String → Option ℤ)
    (parseFloat : String → Option ℚ) (st : Xml)
    (h : attrGet st "id" = none ∨ attrGet st "lastupdate" = none ∨
      ∃ lu, attrGet st "lastupdate" = some lu ∧ parseTs lu = none) :
    stationEntry parseTs parseFloat st = none := by
  unfold stationEntry
  rcases h with hid | hlu | ⟨lu, hlu, hts⟩
  · simp only [hid]
  · cases hid : attrGet st "id" with
    | none => simp only [hid]
    | some sid => simp only [hid, hlu]
  · cases hid : attrGet st "id" with
    | none => simp only [hid]
    | some sid =>
      simp only [hid, hlu]
      by_cases hemp : sid = "" ∨ lu = ""
      · rw [if_pos hemp]
      · rw [if_neg hemp]
        simp only [hts]

/-- Claim C10 counterexample: the claim quantifies over every XML input
string, but a well-formed document that begins with an XML declaration
carrying an encoding pseudo-attribute makes ET.fromstring (called on the str
xml_content) raise ValueError, which the except ET.ParseError clause does not
catch, so parse_rss_feed raises instead of returning a mapping. -/
theorem parse_rss_encoding_decl_counterexample :
    parse_rss_feed (fun _ => none) (fun _ => none)
        (XmlInput.mk true (some (Xml.elem "AirQualityData" [] []))) =
      .raised "ValueError" := rfl

/-- Claim C10 (amended): for every XML input string that does not carry an
encoding declaration, parse_rss_feed returns a mapping without raising an
exception; every entry of the mapping originates from a Station element that
passed the id/lastupdate/strptime checks (so stations lacking an id or
lastupdate attribute, or whose lastupdate does not parse in the dd-mm-YYYY
HH:MM:SS format, are omitted); every non-AQI pollutant entry retained holds a
float parsed from a non-"NA" Hourly_sub_index attribute; and input that is
not well-formed XML yields an empty mapping. -/
theorem parse_rss_feed_total (parseTs : String → Option ℤ)
    (parseFloat : String → Option ℚ) (x : XmlInput)
    (hx : x.hasEncodingDecl = false) :
    (∃ m, parse_rss_feed parseTs parseFloat x = .ok m) ∧
    (x.parsed = none → parse_rss_feed parseTs parseFloat x = .ok []) ∧
    (∀ root, x.parsed = some root →
      parse_rss_feed parseTs parseFloat x =
        .ok (buildStations parseTs parseFloat root) ∧
      ∀ e ∈ buildStations parseTs parseFloat root,
        ∃ st ∈ iterTag "Station" root,
          stationEntry parseTs parseFloat st = some e) ∧
    (∀ st : Xml,
      (attrGet st "id" = none ∨ attrGet st "lastupdate" = none ∨
        ∃ lu, attrGet st "lastupdate" = some lu ∧ parseTs lu = none) →
      stationEntry parseTs parseFloat st = none) ∧
    (∀ st : Xml, ∀ p ∈ pollutantsOf parseFloat st, p.1 = "AQI" ∨
      ∃ q hv pe, p.2 = PVal.num q ∧ pe ∈ st.children ∧
        pe.tag = "Pollutant_Index" ∧ attrGet pe "Hourly_sub_index" = some hv ∧
        hv ≠ "NA" ∧ parseFloat hv = some q) := by
  have hrun : ∀ root, x.parsed = some root →
      parse_rss_feed parseTs parseFloat x =
        .ok (buildStations parseTs parseFloat root) := by
    intro root hp
    unfold parse_rss_feed
    rw [hx, hp]
    rfl
  have hempty : x.parsed = none → parse_rss_feed parseTs parseFloat x = .ok [] := by
    intro hp
    unfold parse_rss_feed
    rw [hx, hp]
    rfl
  refine ⟨?_, hempty, ?_, ?_, ?_⟩
  · cases hp : x.parsed with
    | none => exact ⟨[], hempty hp⟩
    | some root => exact ⟨buildStations parseTs parseFloat root, hrun root hp⟩
  · intro root hp
    exact ⟨hrun root hp, buildStations_mem parseTs parseFloat root⟩
  · intro st h
    exact stationEntry_omits parseTs parseFloat st h
  · intro st p hp
    exact pollutantsOf_mem parseFloat st p hp

theorem parse_rss_feed_total_witness :
    ∃ m, parse_rss_feed (fun _ => some 0) (fun _ => none)
        (XmlInput.mk false none) = .ok m :=
  (parse_rss_feed_total (fun _ => some 0) (fun _ => none)
    (XmlInput.mk false none) rfl).1

end ClearSight
